import Mathlib

/-!
Verification of the Streak Scanning and Caching Engine of the
CryptoTradingTool repository.

The definitions below are a shallow embedding of the Python sources:

* `src/core/kucoin_client.py` — `count_consecutive_candles`,
  `fetch_top_volumes`, `get_asset_details`,
  `ensure_asset_details_are_loaded`;
* `src/interfaces/desktop_app.py` — `_get_stale_timeframes`,
  `_get_current_sync_timeframes`, `manual_refresh`.

Machine floats of the source become rationals, timestamps become integers
(minutes), Python dictionaries become association lists, the network and
the filesystem become explicit oracles and state.
-/

namespace CryptoTool

/-- Candle color as computed by the streak detector: the string values
"green" and "red" of the source. -/
inductive CandleColor where
  | green
  | red
  deriving Repr, DecidableEq

/-- One OHLCV candle.  The source represents a candle as the list
`[timestamp, open, high, low, close, volume]` (see the comment at
`kucoin_client.py` line 148); here the six positions are named fields,
with prices as rationals. -/
structure Candle where
  ts : ℤ
  openPrice : ℚ
  high : ℚ
  low : ℚ
  closePrice : ℚ
  vol : ℚ
  deriving Repr, DecidableEq

/-- Classification of one candle, from `kucoin_client.py` line 152:
`color = "green" if candle[4] >= candle[1] else "red"`. -/
def candleColor (cd : Candle) : CandleColor :=
  if cd.closePrice ≥ cd.openPrice then .green else .red

/-- The for-loop of `count_consecutive_candles` (`kucoin_client.py`
lines 147-157), walking the reversed completed window and threading the
`count` and `last_color` accumulators; the loop counts while the color of
the current candle matches the previous one and breaks at the first
mismatch. -/
def streakLoop : List Candle → Nat → Option CandleColor → Nat × Option CandleColor
  | [], count, lastColor => (count, lastColor)
  | cd :: rest, count, lastColor =>
    let color := candleColor cd
    match lastColor with
    | none => streakLoop rest (count + 1) (some color)
    | some lc =>
      if color = lc then streakLoop rest (count + 1) (some color)
      else (count, some lc)

/-- `count_consecutive_candles` (`kucoin_client.py` lines 131-161),
starting from the fetched window: an empty fetch returns `(0, None, None)`;
otherwise the last (forming) candle is dropped (`completed = ohlcv[:-1]`),
an empty remainder returns `(0, None, None)`, and otherwise the loop walks
`reversed(completed)`; `last_close_price` is the close of the first candle
of the reversed list. -/
def count_consecutive_candles (ohlcv : List Candle) :
    Nat × Option CandleColor × Option ℚ :=
  if ohlcv.isEmpty then (0, none, none)
  else
    let completed := ohlcv.dropLast
    if completed.isEmpty then (0, none, none)
    else
      let r := streakLoop completed.reverse 0 none
      (r.1, r.2, completed.reverse.head?.map (·.closePrice))

/-- Seeded runs of `streakLoop` count exactly the longest prefix sharing
the seed color. -/
theorem streakLoop_some (l : List Candle) (n : Nat) (cl : CandleColor) :
    streakLoop l n (some cl) =
      (n + (l.takeWhile (fun d => decide (candleColor d = cl))).length, some cl) := by
  induction l generalizing n with
  | nil => simp [streakLoop]
  | cons cd rest ih =>
    by_cases h : candleColor cd = cl
    · simp [streakLoop, h, List.takeWhile_cons, ih]
      omega
    · simp [streakLoop, h, List.takeWhile_cons]

/-- An unseeded run of `streakLoop` on a nonempty list seeds the color with
the head and counts the longest constant-color prefix. -/
theorem streakLoop_none (cd : Candle) (rest : List Candle) :
    streakLoop (cd :: rest) 0 none =
      (((cd :: rest).takeWhile (fun d => decide (candleColor d = candleColor cd))).length,
        some (candleColor cd)) := by
  simp [streakLoop, streakLoop_some, List.takeWhile_cons]
  omega

/-- The concrete window of the C4 scenario: completed closes, oldest to
newest, `[10, 11, 12, 9, 8, 7]` with opens `[9, 10, 11, 10, 9, 8]`,
followed by one forming candle that the detector must drop. -/
def scenarioWindow : List Candle :=
  [⟨0, 9, 0, 0, 10, 0⟩, ⟨1, 10, 0, 0, 11, 0⟩, ⟨2, 11, 0, 0, 12, 0⟩,
   ⟨3, 10, 0, 0, 9, 0⟩, ⟨4, 9, 0, 0, 8, 0⟩, ⟨5, 8, 0, 0, 7, 0⟩,
   ⟨6, 7, 0, 0, 7, 0⟩]

/-- C3 counterexample: a fetched window of length 2 leaves exactly one
usable candle after dropping the forming one — fewer than 2 — yet the
detector returns `count = 1` with a present color and a present last
close, not `count = 0` with color absent as the claim states. -/
theorem C3_counterexample :
    ([⟨0, 1, 2, 0, 2, 1⟩, ⟨1, 2, 3, 1, 3, 1⟩] : List Candle).dropLast.length = 1 ∧
    count_consecutive_candles [⟨0, 1, 2, 0, 2, 1⟩, ⟨1, 2, 3, 1, 3, 1⟩] =
      (1, some .green, some 2) := by
  constructor
  · decide
  · decide

/-- C3 (amended): a fetched window that leaves zero usable candles after
dropping the forming one (length 0 or 1) yields `count = 0`, color absent
and last close absent; a window that leaves exactly one usable candle
yields `count = 1` with that candle giving the color and the last close. -/
theorem C3_short_window :
    (∀ ohlcv : List Candle, ohlcv.dropLast = [] →
      count_consecutive_candles ohlcv = (0, none, none)) ∧
    (∀ (ohlcv : List Candle) (cd : Candle), ohlcv.dropLast = [cd] →
      count_consecutive_candles ohlcv =
        (1, some (candleColor cd), some cd.closePrice)) := by
  constructor
  · intro ohlcv h
    cases ohlcv with
    | nil => rfl
    | cons a rest => simp [count_consecutive_candles, h]
  · intro ohlcv cd h
    cases ohlcv with
    | nil => simp at h
    | cons a rest =>
      simp [count_consecutive_candles, h, streakLoop]

/-- Witness for `C3_short_window` at a concrete one-usable-candle window. -/
theorem C3_short_window_witness :
    count_consecutive_candles [⟨0, 1, 2, 0, 2, 1⟩, ⟨1, 2, 3, 1, 3, 1⟩] =
      (1, some (candleColor ⟨0, 1, 2, 0, 2, 1⟩), some (2 : ℚ)) :=
  C3_short_window.2 [⟨0, 1, 2, 0, 2, 1⟩, ⟨1, 2, 3, 1, 3, 1⟩] ⟨0, 1, 2, 0, 2, 1⟩ (by decide)

/-- C4: the detector drops the last candle of the window, walks the
remaining candles from most recent to oldest, classifies a candle green
exactly when close is at least open (`candleColor`), seeds the color with
the first classified candle, counts while the color matches and stops at
the first mismatch — so for a nonempty completed remainder the result is
the length of the longest constant-color prefix of the reversed completed
list together with the seed color and the close of the most recent
completed candle; on the concrete scenario window it returns count 3 and
color red. -/
theorem C4_streak_algorithm :
    (∀ (ohlcv : List Candle) (cd : Candle) (rest : List Candle),
      ohlcv.dropLast.reverse = cd :: rest →
      count_consecutive_candles ohlcv =
        (((cd :: rest).takeWhile (fun d => decide (candleColor d = candleColor cd))).length,
          some (candleColor cd), some cd.closePrice)) ∧
    count_consecutive_candles scenarioWindow = (3, some .red, some 7) := by
  constructor
  · intro ohlcv cd rest h
    have hne : ohlcv ≠ [] := by
      intro hnil; rw [hnil] at h; simp at h
    have hne2 : ohlcv.dropLast ≠ [] := by
      intro hnil; rw [hnil] at h; simp at h
    simp only [count_consecutive_candles, List.isEmpty_iff, hne, if_false,
      hne2, if_false, h, streakLoop_none]
    simp
  · decide

/-- Witness for `C4_streak_algorithm` on the scenario window. -/
theorem C4_witness :
    count_consecutive_candles scenarioWindow = (3, some .red, some 7) :=
  (C4_streak_algorithm.1 scenarioWindow ⟨5, 8, 0, 0, 7, 0⟩
      [⟨4, 9, 0, 0, 8, 0⟩, ⟨3, 10, 0, 0, 9, 0⟩, ⟨2, 11, 0, 0, 12, 0⟩,
        ⟨1, 10, 0, 0, 11, 0⟩, ⟨0, 9, 0, 0, 10, 0⟩] (by decide)).trans (by decide)

/-! ## Volume ranker: `fetch_top_volumes` (`kucoin_client.py` lines 122-129) -/

/-- Python truthiness of the expression `d.get('quoteVolume')`: the field
must be present and its value nonzero for the test to pass. -/
def volumeTruthy : Option ℚ → Bool
  | none => false
  | some v => decide (v ≠ 0)

/-- The membership test `':USDT' in s`: the characters `:USDT` occur as a
contiguous substring of `s`. -/
def containsUSDT (s : String) : Bool := decide (":USDT".toList <:+: s.toList)

/-- The list comprehension at `kucoin_client.py` line 125:
`[(s, d['quoteVolume']) for s, d in tickers.items() if d.get('quoteVolume') and ':USDT' in s]`.
The ticker snapshot is modelled as an association list from symbol to the
optional `quoteVolume` field, in dictionary iteration order. -/
def filteredPairs (tickers : List (String × Option ℚ)) : List (String × ℚ) :=
  tickers.filterMap fun p =>
    if volumeTruthy p.2 && containsUSDT p.1 then p.2.map (fun v => (p.1, v)) else none

/-- Comparison used to model `sorted(symbols, key=lambda x: x[1], reverse=True)`:
a stable sort placing larger volumes first. -/
def volumeLE (a b : String × ℚ) : Bool := decide (b.2 ≤ a.2)

/-- The sorted pair list `sorted(symbols, key=lambda x: x[1], reverse=True)`
at `kucoin_client.py` line 126; the Python sort is stable, which a stable
merge sort under `volumeLE` reproduces exactly. -/
def rankedPairs (tickers : List (String × Option ℚ)) : List (String × ℚ) :=
  (filteredPairs tickers).mergeSort volumeLE

/-- `fetch_top_volumes` (`kucoin_client.py` lines 122-129): filter, sort
descending by volume, truncate to `limit`, keep the symbols. -/
def fetch_top_volumes (tickers : List (String × Option ℚ)) (limit : Nat) : List String :=
  ((rankedPairs tickers).take limit).map Prod.fst

theorem volumeLE_trans (a b c : String × ℚ) :
    volumeLE a b = true → volumeLE b c = true → volumeLE a c = true := by
  simp only [volumeLE, decide_eq_true_eq]
  exact fun h1 h2 => le_trans h2 h1

theorem volumeLE_total (a b : String × ℚ) : (volumeLE a b || volumeLE b a) = true := by
  simp only [volumeLE, Bool.or_eq_true, decide_eq_true_eq]
  exact le_total b.2 a.2

/-- Membership in the filtered pair list characterised against the raw
snapshot. -/
theorem mem_filteredPairs {tickers : List (String × Option ℚ)} {q : String × ℚ} :
    q ∈ filteredPairs tickers ↔
      (q.1, some q.2) ∈ tickers ∧ q.2 ≠ 0 ∧ containsUSDT q.1 = true := by
  constructor
  · intro h
    rcases List.mem_filterMap.1 h with ⟨p, hp, hf⟩
    by_cases hc : (volumeTruthy p.2 && containsUSDT p.1) = true
    · rw [if_pos hc] at hf
      cases hv : p.2 with
      | none => rw [hv] at hf; simp at hf
      | some v =>
        rw [hv] at hf
        simp at hf
        rw [Bool.and_eq_true] at hc
        rcases hc with ⟨ht, hu⟩
        rw [hv] at ht
        simp only [volumeTruthy, decide_eq_true_eq] at ht
        subst hf
        exact ⟨by rw [← hv]; exact hp, ht, hu⟩
    · rw [if_neg hc] at hf; simp at hf
  · rintro ⟨hmem, hnz, hus⟩
    refine List.mem_filterMap.2 ⟨(q.1, some q.2), hmem, ?_⟩
    simp [volumeTruthy, hnz, hus]

/-- Pairs surviving in the ranked output come from the filtered set. -/
theorem mem_rankedPairs {tickers : List (String × Option ℚ)} {q : String × ℚ} :
    q ∈ rankedPairs tickers ↔ q ∈ filteredPairs tickers := by
  exact (List.mergeSort_perm (filteredPairs tickers) volumeLE).mem_iff

/-- C8: the volume ranker keeps only instruments in the designated quote
currency that carry a present, truthy 24h quote volume (a missing field is
excluded, never defaulted to zero), sorts the survivors descending by
volume with ties kept in snapshot iteration order (stable sort), truncates
to the limit, and returns `min limit survivors` entries — fewer than limit,
without error, when fewer qualify. -/
theorem C8_volume_ranker :
    (∀ (tickers : List (String × Option ℚ)) (limit : Nat) (s : String),
      s ∈ fetch_top_volumes tickers limit →
      containsUSDT s = true ∧ ∃ v : ℚ, v ≠ 0 ∧ (s, some v) ∈ tickers) ∧
    (∀ (tickers : List (String × Option ℚ)) (limit : Nat) (s : String),
      (tickers.map Prod.fst).Nodup → (s, none) ∈ tickers →
      s ∉ fetch_top_volumes tickers limit) ∧
    (∀ tickers : List (String × Option ℚ),
      (rankedPairs tickers).Pairwise (fun a b => b.2 ≤ a.2)) ∧
    (∀ (tickers : List (String × Option ℚ)) (v : ℚ),
      (rankedPairs tickers).filter (fun p => decide (p.2 = v)) =
        (filteredPairs tickers).filter (fun p => decide (p.2 = v))) ∧
    (∀ (tickers : List (String × Option ℚ)) (limit : Nat),
      (fetch_top_volumes tickers limit).length = min limit (filteredPairs tickers).length) := by
  have hmem : ∀ (tickers : List (String × Option ℚ)) (limit : Nat) (s : String),
      s ∈ fetch_top_volumes tickers limit →
      containsUSDT s = true ∧ ∃ v : ℚ, v ≠ 0 ∧ (s, some v) ∈ tickers := by
    intro tickers limit s hs
    rcases List.mem_map.1 hs with ⟨q, hq, hq1⟩
    have hq2 : q ∈ rankedPairs tickers := List.mem_of_mem_take hq
    rcases mem_filteredPairs.1 (mem_rankedPairs.1 hq2) with ⟨h1, h2, h3⟩
    subst hq1
    exact ⟨h3, q.2, h2, h1⟩
  refine ⟨hmem, ?_, ?_, ?_, ?_⟩
  · intro tickers limit s hnd hnone hs
    rcases (hmem tickers limit s hs).2 with ⟨v, _, hv⟩
    have hln : tickers.Nodup := List.Nodup.of_map _ hnd
    have := (List.nodup_map_iff_inj_on hln).1 hnd (s, none) hnone (s, some v) hv rfl
    simp at this
  · intro tickers
    have := List.sorted_mergeSort volumeLE_trans volumeLE_total (filteredPairs tickers)
    exact this.imp (fun h => by simpa [volumeLE] using h)
  · intro tickers v
    have hsub : ((filteredPairs tickers).filter (fun p => decide (p.2 = v))).Sublist
        (filteredPairs tickers) := List.filter_sublist _
    have hpw : ((filteredPairs tickers).filter (fun p => decide (p.2 = v))).Pairwise
        (fun a b => volumeLE a b = true) := by
      apply List.pairwise_of_forall_mem_list
      intro a ha b hb
      have ha2 := List.of_mem_filter ha
      have hb2 := List.of_mem_filter hb
      simp only [decide_eq_true_eq] at ha2 hb2
      simp [volumeLE, ha2, hb2]
    have hst := List.sublist_mergeSort volumeLE_trans volumeLE_total hpw hsub
    have hst2 := hst.filter (fun p => decide (p.2 = v))
    rw [List.filter_filter] at hst2
    simp only [Bool.and_self] at hst2
    have hperm := (List.mergeSort_perm (filteredPairs tickers) volumeLE).filter
      (fun p => decide (p.2 = v))
    exact (hst2.eq_of_length hperm.length_eq.symm).symm
  · intro tickers limit
    rw [fetch_top_volumes, List.length_map, List.length_take, rankedPairs,
      (List.mergeSort_perm (filteredPairs tickers) volumeLE).length_eq]

/-- Witness for `C8_volume_ranker`: a symbol whose volume field is absent
is excluded from the ranking. -/
theorem C8_witness :
    "BBB/USDT:USDT" ∉ fetch_top_volumes [("AAA/USDT:USDT", some 3), ("BBB/USDT:USDT", none)] 2 :=
  C8_volume_ranker.2.1 [("AAA/USDT:USDT", some 3), ("BBB/USDT:USDT", none)] 2
    "BBB/USDT:USDT" (by decide) (by decide)

/-- C9: the truthiness filter treats a present-but-zero 24h volume exactly
like an absent field (rewriting every `some 0` volume to `none` leaves the
output unchanged), and every ranked symbol contains the `:USDT` margin
suffix. -/
theorem C9_zero_volume_truthiness :
    (∀ (tickers : List (String × Option ℚ)) (limit : Nat) (s : String),
      s ∈ fetch_top_volumes tickers limit → containsUSDT s = true) ∧
    (∀ (tickers : List (String × Option ℚ)) (limit : Nat),
      fetch_top_volumes (tickers.map (fun p => if p.2 = some 0 then (p.1, none) else p)) limit =
        fetch_top_volumes tickers limit) := by
  constructor
  · intro tickers limit s hs
    rcases List.mem_map.1 hs with ⟨q, hq, hq1⟩
    have hq2 : q ∈ rankedPairs tickers := List.mem_of_mem_take hq
    rcases mem_filteredPairs.1 (mem_rankedPairs.1 hq2) with ⟨_, _, h3⟩
    subst hq1
    exact h3
  · intro tickers limit
    have hfp : filteredPairs (tickers.map (fun p => if p.2 = some 0 then (p.1, none) else p)) =
        filteredPairs tickers := by
      induction tickers with
      | nil => rfl
      | cons p rest ih =>
        obtain ⟨a, b⟩ := p
        by_cases h : b = some 0
        · subst h
          simp only [filteredPairs, List.filterMap_cons, List.map_cons] at ih ⊢
          simpa [volumeTruthy] using ih
        · simp only [filteredPairs, List.filterMap_cons, List.map_cons] at ih ⊢
          simp only [if_neg h, ih]
    simp [fetch_top_volumes, rankedPairs, hfp]

/-- Witness for `C9_zero_volume_truthiness`: a ranked symbol indeed carries
the margin suffix. -/
theorem C9_witness : containsUSDT "AAA/USDT:USDT" = true := by
  have hev : fetch_top_volumes [("AAA/USDT:USDT", some 3)] 1 = ["AAA/USDT:USDT"] := by
    have h : filteredPairs [("AAA/USDT:USDT", some 3)] = [("AAA/USDT:USDT", 3)] := by decide
    rw [fetch_top_volumes, rankedPairs, h, List.mergeSort_singleton]
    rfl
  exact C9_zero_volume_truthiness.1 [("AAA/USDT:USDT", some 3)] 1 "AAA/USDT:USDT"
    (by rw [hev]; exact List.mem_singleton_self _)

/-! ## Staleness tracker (`desktop_app.py` lines 297-313) -/

/-- The eight candle timeframes carrying durations in
`TIMEFRAME_DURATIONS` (`desktop_app.py` lines 26-30). -/
inductive Timeframe where
  | tf15m
  | tf30m
  | tf1h
  | tf2h
  | tf4h
  | tf8h
  | tf1d
  | tf1w
  deriving Repr, DecidableEq

/-- `TIMEFRAME_DURATIONS` (`desktop_app.py` lines 26-30), in minutes. -/
def timeframeDuration : Timeframe → ℤ
  | .tf15m => 15
  | .tf30m => 30
  | .tf1h => 60
  | .tf2h => 120
  | .tf4h => 240
  | .tf8h => 480
  | .tf1d => 1440
  | .tf1w => 10080

/-- Modelled from the spec: `config/intervals.py` is not among the
sources; `all_interval` is the full set of tracked timeframes, which the
spec identifies with the timeframes that have durations and
synchronization boundaries (spec sections 3 and 4.4, matching
`TIMEFRAME_DURATIONS` and `_get_current_sync_timeframes`). -/
def all_interval : List Timeframe :=
  [.tf15m, .tf30m, .tf1h, .tf2h, .tf4h, .tf8h, .tf1d, .tf1w]

/-- Wall-clock minute of an instant; instants are whole minutes counted
from an hour-aligned origin, so `now.minute` is the residue modulo 60. -/
def minuteOf (now : ℤ) : ℤ := now % 60

/-- `_get_current_sync_timeframes` (`desktop_app.py` lines 307-313):
minute residue 1 modulo 15 marks the 15m boundary, residue 1 modulo 30 the
30m boundary, and minute exactly 1 the boundary of the six larger
timeframes.  The Python set is modelled as a list; only membership is
used. -/
def _get_current_sync_timeframes (now : ℤ) : List Timeframe :=
  let minute := minuteOf now
  (if minute % 15 = 1 then [Timeframe.tf15m] else []) ++
  (if minute % 30 = 1 then [Timeframe.tf30m] else []) ++
  (if minute = 1 then
    [Timeframe.tf1h, .tf2h, .tf4h, .tf8h, .tf1d, .tf1w] else [])

/-- `_get_stale_timeframes` (`desktop_app.py` lines 297-306).  The cache
maps a timeframe to the timestamp of its entry when one exists; the first
filter is the loop adding timeframes without an entry, the second the loop
adding entries at least one duration old, and the final append the
`stale.update(...)` of the synchronization boundaries.  The Python set is
modelled as a list whose membership is the set membership. -/
def _get_stale_timeframes (cache : Timeframe → Option ℤ) (now : ℤ) :
    List Timeframe :=
  (all_interval.filter fun tf => (cache tf).isNone) ++
  (all_interval.filter fun tf =>
    match cache tf with
    | some ts => decide (now - ts ≥ timeframeDuration tf)
    | none => false) ++
  _get_current_sync_timeframes now

/-- Every timeframe is tracked. -/
theorem mem_all_interval (tf : Timeframe) : tf ∈ all_interval := by
  cases tf <;> decide

/-- C5: a timeframe is due exactly when it has no cache entry, or its entry
is at least one timeframe duration old, or the current minute falls on the
synchronization boundary recognised for it — the boundary check is a union
with the duration check.  Concretely, with `now` at minute 10 of an hour, a
1h entry refreshed 61 minutes earlier is due and one refreshed 10 minutes
earlier is not. -/
theorem C5_staleness :
    (∀ (cache : Timeframe → Option ℤ) (now : ℤ) (tf : Timeframe),
      tf ∈ _get_stale_timeframes cache now ↔
        cache tf = none ∨
        (∃ ts, cache tf = some ts ∧ now - ts ≥ timeframeDuration tf) ∨
        tf ∈ _get_current_sync_timeframes now) ∧
    Timeframe.tf1h ∈
      _get_stale_timeframes (fun tf => if tf = .tf1h then some 69 else some 130) 130 ∧
    Timeframe.tf1h ∉
      _get_stale_timeframes (fun tf => if tf = .tf1h then some 120 else some 130) 130 := by
  refine ⟨?_, by decide, by decide⟩
  intro cache now tf
  simp only [_get_stale_timeframes, List.mem_append, List.mem_filter,
    mem_all_interval tf, true_and]
  cases hc : cache tf with
  | none => simp
  | some ts => simp

/-! ## Single-flight scan guard (`desktop_app.py` lines 245-296)

The Qt event loop executes slots sequentially on the GUI thread, so
consecutive `manual_refresh` invocations (timer tick or button click) are
serialised and the guard at lines 251-253 decides whether a second scan
may start while the worker thread of a first one is still running. -/

/-- Outcome of one `manual_refresh` invocation: the early return at
`desktop_app.py` lines 251-253 (a worker thread is still running, the
request is skipped — the condition the spec names `ScanAlreadyInProgress`),
the early return at lines 256-259 (no stale timeframe), or a started scan
carrying the stale timeframes handed to the new worker. -/
inductive RefreshOutcome where
  | scanAlreadyInProgress
  | upToDate
  | started (timeframes : List Timeframe)
  deriving Repr, DecidableEq

/-- The pieces of `MainWindow` state that `manual_refresh` reads or
writes: whether a worker thread is running, the progress bar, the refresh
button, the log dialog contents, the console log, and the timestamp of
each cached timeframe entry. -/
structure AppState where
  workerRunning : Bool
  progressVisible : Bool
  progressValue : ℕ
  refreshEnabled : Bool
  logDialogLines : List String
  consoleLog : List String
  cache : Timeframe → Option ℤ

/-- `manual_refresh` (`desktop_app.py` lines 249-278) as a state
transition: log the trigger; if a worker thread is running, log the skip
and return without touching anything else; otherwise compute the stale
timeframes, return if there are none, and otherwise clear the log dialog,
reset and show the progress bar, disable the refresh button and start a
worker for the stale timeframes. -/
def manual_refresh (s : AppState) (now : ℤ) : AppState × RefreshOutcome :=
  let s0 := { s with consoleLog := s.consoleLog ++ ["manual_refresh() triggered."] }
  if s0.workerRunning then
    ({ s0 with consoleLog := s0.consoleLog ++
        ["Refresh is already in progress. Skipping request."] },
      .scanAlreadyInProgress)
  else
    let timeframes := _get_stale_timeframes s0.cache now
    if timeframes.isEmpty then
      ({ s0 with consoleLog := s0.consoleLog ++
          ["Cache is up to date. Nothing to refresh."] }, .upToDate)
    else
      ({ s0 with
          logDialogLines := [],
          progressVisible := true,
          progressValue := 0,
          refreshEnabled := false,
          workerRunning := true,
          consoleLog := s0.consoleLog ++ ["Starting worker thread..."] },
        .started timeframes)

/-- C1: invoking the scan entry point while a prior scan is still running
is rejected with the skip outcome the spec names `ScanAlreadyInProgress`
and is not queued: no new worker is started, and the progress value, the
progress bar visibility, the log dialog contents, the cache and the
refresh button of the in-flight scan are all left untouched. -/
theorem C1_single_flight (s : AppState) (now : ℤ)
    (h : s.workerRunning = true) :
    (manual_refresh s now).2 = .scanAlreadyInProgress ∧
    (manual_refresh s now).1.progressValue = s.progressValue ∧
    (manual_refresh s now).1.progressVisible = s.progressVisible ∧
    (manual_refresh s now).1.logDialogLines = s.logDialogLines ∧
    (manual_refresh s now).1.workerRunning = true ∧
    (manual_refresh s now).1.refreshEnabled = s.refreshEnabled ∧
    (manual_refresh s now).1.cache = s.cache := by
  simp [manual_refresh, h]

/-- Witness for `C1_single_flight` on a concrete busy state. -/
theorem C1_witness :
    (manual_refresh ⟨true, true, 42, false, ["line"], [], fun _ => none⟩ 0).2 =
      RefreshOutcome.scanAlreadyInProgress :=
  (C1_single_flight ⟨true, true, 42, false, ["line"], [], fun _ => none⟩ 0 rfl).1

/-! ## Asset metadata cache (`kucoin_client.py` lines 35-120) -/

/-- One entry of the `asset_details` store: the dictionary
`{'name': ..., 'icon_path': ...}` with `None` as the absent icon path. -/
structure AssetDetail where
  name : String
  icon_path : Option String
  deriving Repr, DecidableEq

/-- The `asset_details` dictionary, as an insertion-ordered association
list with distinct keys maintained by `storeSet`. -/
abbrev DetailStore := List (String × AssetDetail)

/-- Python `store.get(k)` on the detail dictionary. -/
def storeGet (st : DetailStore) (k : String) : Option AssetDetail :=
  (st.find? fun p => decide (p.1 = k)).map (·.2)

/-- Python dictionary assignment `store[k] = v`: replace the value in
place when the key exists, append otherwise. -/
def storeSet (st : DetailStore) (k : String) (v : AssetDetail) : DetailStore :=
  if st.any (fun p => decide (p.1 = k)) then
    st.map fun p => if p.1 = k then (k, v) else p
  else st ++ [(k, v)]

/-- The CoinGecko id map `{tickerCode -> canonicalId}`. -/
abbrev GeckoMap := List (String × String)

/-- Python `map.get(k)` on the id map. -/
def mapGet (m : GeckoMap) (k : String) : Option String :=
  (m.find? fun p => decide (p.1 = k)).map (·.2)

/-- Python dictionary assignment on the id map. -/
def mapSet (m : GeckoMap) (k v : String) : GeckoMap :=
  if m.any (fun p => decide (p.1 = k)) then
    m.map fun p => if p.1 = k then (k, v) else p
  else m ++ [(k, v)]

/-- The loop at `kucoin_client.py` lines 72-73 building
`coingecko_map[coin['symbol']] = coin['id']` over the catalog listing. -/
def buildGeckoMap (coins : List (String × String)) : GeckoMap :=
  coins.foldl (fun m c => mapSet m c.1 c.2) []

/-- `symbol_string.split('/')[0]`: the prefix of the string before the
first slash (the whole string when no slash occurs), written as a
character take-while so that it computes by structural recursion. -/
def baseCurrency (s : String) : String :=
  ⟨s.toList.takeWhile fun ch => decide (ch ≠ '/')⟩

/-- `str.lower()` on ticker codes, character by character (ticker codes
are ASCII). -/
def toLowerStr (s : String) : String := ⟨s.toList.map Char.toLower⟩

/-- `get_asset_details` (`kucoin_client.py` lines 44-49): parse the base
currency, return its cached entry, or the fallback
`{'name': base_currency, 'icon_path': None}` when no entry exists.  The
except branch at line 48 returning `{'name': symbol_string, ...}` is
unreachable for string inputs, since `split` on a string always yields at
least one element; totality of this Lean function is the translation of
the method never raising. -/
def get_asset_details (details : DetailStore) (symbol_string : String) : AssetDetail :=
  let base_currency := baseCurrency symbol_string
  (storeGet details base_currency).getD ⟨base_currency, none⟩

/-- Oracle view of one retry-loop attempt for one asset (the try-block at
`kucoin_client.py` lines 89-114): an HTTP 429 from the coin endpoint, any
other failing attempt (a `RequestException` raised anywhere in the
attempt, the icon download included — nothing is stored in that case), or
a fully successful attempt carrying the optional `name` field of the
payload and the optional icon URL. -/
inductive AttemptOutcome where
  | rateLimited
  | failure
  | success (nameField : Option String) (iconUrl : Option String)

/-- The network as the enrichment pass sees it: the one-time CoinGecko
catalog listing as `(symbol, id)` pairs (`none` when the fetch at lines
70-75 fails), and the per-asset, per-attempt outcome of the coin detail
fetch. -/
structure NetEnv where
  catalog : Option (List (String × String))
  attempt : String → Nat → AttemptOutcome

/-- The mutable state `ensure_asset_details_are_loaded` touches: the
in-memory `asset_details` dictionary, its pickled copy in
`ASSET_DETAILS_FILE`, the in-memory `coingecko_map` (empty while
unloaded), the pickled `COINGECKO_MAP_FILE` (`none` while the file does
not exist), and the set of files present on disk, queried by
`os.path.exists` and extended by icon downloads. -/
structure CacheState where
  asset_details : DetailStore
  disk_details : DetailStore
  coingecko_map : GeckoMap
  disk_map : Option GeckoMap
  fs : List String
  deriving Repr, DecidableEq

/-- Python truthiness of `if icon_url:`: present and nonempty. -/
def urlTruthy : Option String → Bool
  | none => false
  | some u => decide (u ≠ "")

/-- `os.path.join(ICON_CACHE_DIR, f"{code}.png")`. -/
def iconPath (code : String) : String := "cache/icons/" ++ code ++ ".png"

/-- What one run of the retry loop (`kucoin_client.py` lines 86-114)
produces for one asset: the stored entry if some attempt succeeded, the
resulting set of files on disk, the sequence of `time.sleep` durations in
tenths of a second (12 is the 1.2s pacing delay, 610 the 61s rate-limit
cooldown, 50, 100, 150 the 5s, 10s, 15s backoffs), and the number of
network requests issued.  A failing attempt is
counted as one request (the coin-endpoint call; a failing icon download
would add one more, so counts on failure paths are lower bounds — the
claims depend only on the success-path counts and on zero versus
nonzero). -/
structure FetchTrace where
  result : Option AssetDetail
  fs : List String
  sleeps : List ℕ
  calls : ℕ
  deriving Repr, DecidableEq

/-- The retry loop `for attempt in range(max_retries)` at
`kucoin_client.py` lines 88-114, from attempt index `idx` with `remaining`
attempts left: every attempt starts with `time.sleep(1.2)`; a 429 sleeps
61 seconds and continues; any other failure sleeps `5 * (attempt + 1)`
seconds and continues; a success stores the name (defaulting to the code)
and, when the icon URL is truthy, downloads the icon to its per-ticker
file, and breaks. -/
def attemptLoop (env : NetEnv) (code : String) :
    Nat → Nat → List String → FetchTrace
  | _, 0, fs => ⟨none, fs, [], 0⟩
  | idx, remaining + 1, fs =>
    match env.attempt code idx with
    | .rateLimited =>
      let r := attemptLoop env code (idx + 1) remaining fs
      ⟨r.result, r.fs, 12 :: 610 :: r.sleeps, r.calls + 1⟩
    | .failure =>
      let r := attemptLoop env code (idx + 1) remaining fs
      ⟨r.result, r.fs, 12 :: 50 * (idx + 1) :: r.sleeps, r.calls + 1⟩
    | .success nameField iconUrl =>
      if urlTruthy iconUrl then
        ⟨some ⟨nameField.getD code, some (iconPath code)⟩,
          iconPath code :: fs, [12], 2⟩
      else
        ⟨some ⟨nameField.getD code, none⟩, fs, [12], 1⟩

/-- The body of the per-code loop at `kucoin_client.py` lines 80-117: a
code without a canonical id immediately stores the fallback entry and
continues; otherwise the retry loop runs with `max_retries = 3` and either
its successful entry or, when `not success`, the fallback entry is
stored. -/
def processCode (env : NetEnv) (code : String) (st : CacheState) :
    CacheState × List ℕ × ℕ :=
  match mapGet st.coingecko_map (toLowerStr code) with
  | none =>
    ({ st with asset_details := storeSet st.asset_details code ⟨code, none⟩ }, [], 0)
  | some _ =>
    let t := attemptLoop env code 0 3 st.fs
    match t.result with
    | some d =>
      ({ st with asset_details := storeSet st.asset_details code d, fs := t.fs },
        t.sleeps, t.calls)
    | none =>
      let fallback : AssetDetail := ⟨code, none⟩
      ({ st with
          asset_details := storeSet st.asset_details code fallback,
          fs := t.fs }, t.sleeps, t.calls)

/-- The loop over all missing codes, accumulating sleeps and request
counts. -/
def processAll (env : NetEnv) : List String → CacheState → CacheState × List ℕ × ℕ
  | [], st => (st, [], 0)
  | code :: rest, st =>
    let r := processCode env code st
    let rr := processAll env rest r.1
    (rr.1, r.2.1 ++ rr.2.1, r.2.2 + rr.2.2)

/-- First-occurrence deduplication, modelling the Python set
`{s.split('/')[0] for s in top_symbols}`; the set iteration order is
unspecified upstream and nothing proved below depends on it. -/
def dedupKeepFirst (l : List String) : List String :=
  l.foldl (fun acc c => if acc.contains c then acc else acc ++ [c]) []

/-- Whether a base-currency code counts as missing
(`kucoin_client.py` lines 55-58): no entry at all, or an entry without an
icon path, or an entry whose icon file no longer exists on disk. -/
def missingEntry (st : CacheState) (c : String) : Bool :=
  match storeGet st.asset_details c with
  | none => true
  | some d =>
    match d.icon_path with
    | none => true
    | some p => !(st.fs.contains p)

/-- The `missing_currencies` list computed at `kucoin_client.py`
lines 54-58. -/
def missingCurrencies (st : CacheState) (top_symbols : List String) : List String :=
  (dedupKeepFirst (top_symbols.map baseCurrency)).filter (missingEntry st)

/-- Result of one `ensure_asset_details_are_loaded` call: the state after
the call, the number of network requests issued, the sleeps performed, and
whether the call aborted because the catalog could not be fetched. -/
structure EnsureResult where
  state : CacheState
  calls : ℕ
  sleeps : List ℕ
  abortedOnCatalog : Bool
  deriving Repr, DecidableEq

/-- The common exit of a completed enrichment pass: the whole
`asset_details` store is pickled to disk (`kucoin_client.py`
lines 118-119). -/
def ensureFinish (r : CacheState × List ℕ × ℕ) (extraCalls : ℕ) : EnsureResult :=
  ⟨{ r.1 with disk_details := r.1.asset_details }, r.2.2 + extraCalls, r.2.1, false⟩

/-- `ensure_asset_details_are_loaded` (`kucoin_client.py` lines 51-120):
return immediately when nothing is missing; otherwise load the CoinGecko
map (from memory, else from its pickle, else from the network — and when
that network fetch fails, log and return with nothing modified); then
process every missing code and pickle the updated store. -/
def ensure_asset_details_are_loaded (env : NetEnv) (st : CacheState)
    (top_symbols : List String) : EnsureResult :=
  let missing := missingCurrencies st top_symbols
  if missing.isEmpty then ⟨st, 0, [], false⟩
  else if !st.coingecko_map.isEmpty then
    ensureFinish (processAll env missing st) 0
  else
    match st.disk_map with
    | some m =>
      ensureFinish (processAll env missing { st with coingecko_map := m }) 0
    | none =>
      match env.catalog with
      | some coins =>
        let m := buildGeckoMap coins
        ensureFinish
          (processAll env missing { st with coingecko_map := m, disk_map := some m }) 1
      | none => ⟨st, 1, [], true⟩

/-- C10: `get_asset_details` is total — the Lean translation is a total
function, and the except branch of the source is unreachable for string
inputs, so the parse-failure fallback never fires — it returns a cached
entry for the parsed base code unchanged, and otherwise the fallback
record naming the base code with no icon path. -/
theorem C10_get_asset_details_total :
    (∀ (details : DetailStore) (s : String) (d : AssetDetail),
      storeGet details (baseCurrency s) = some d →
      get_asset_details details s = d) ∧
    (∀ (details : DetailStore) (s : String),
      storeGet details (baseCurrency s) = none →
      get_asset_details details s = ⟨baseCurrency s, none⟩) := by
  constructor
  · intro details s d h
    simp [get_asset_details, h]
  · intro details s h
    simp [get_asset_details, h]

/-- Witness for `C10_get_asset_details_total`: a cached entry is returned
unchanged for the full symbol string naming its base code. -/
theorem C10_witness :
    get_asset_details [("BTC", ⟨"Bitcoin", some "cache/icons/BTC.png"⟩)]
        "BTC/USDT:USDT" = ⟨"Bitcoin", some "cache/icons/BTC.png"⟩ :=
  C10_get_asset_details_total.1 [("BTC", ⟨"Bitcoin", some "cache/icons/BTC.png"⟩)]
    "BTC/USDT:USDT" ⟨"Bitcoin", some "cache/icons/BTC.png"⟩ (by decide)

/-- C7: when the canonical catalog cannot be fetched (no map in memory, no
pickled map on disk, and the network fetch fails), the enrichment pass
returns without touching any per-asset cache entry, without persisting any
canonical-map state and without touching the filesystem. -/
theorem C7_catalog_failure_preserves_state (env : NetEnv) (st : CacheState)
    (syms : List String) (hcat : env.catalog = none)
    (hmem : st.coingecko_map = []) (hdisk : st.disk_map = none) :
    (ensure_asset_details_are_loaded env st syms).state.asset_details = st.asset_details ∧
    (ensure_asset_details_are_loaded env st syms).state.disk_details = st.disk_details ∧
    (ensure_asset_details_are_loaded env st syms).state.disk_map = none ∧
    (ensure_asset_details_are_loaded env st syms).state.fs = st.fs := by
  by_cases hm : (missingCurrencies st syms).isEmpty <;>
    simp [ensure_asset_details_are_loaded, hm, hmem, hdisk, hcat]

/-- Witness for `C7_catalog_failure_preserves_state` on an empty initial
state with one missing symbol. -/
theorem C7_witness :
    (ensure_asset_details_are_loaded ⟨none, fun _ _ => .failure⟩
        ⟨[], [], [], none, []⟩ ["AAA/USDT:USDT"]).state.asset_details = [] :=
  (C7_catalog_failure_preserves_state ⟨none, fun _ _ => .failure⟩
      ⟨[], [], [], none, []⟩ ["AAA/USDT:USDT"] rfl rfl rfl).1

/-- C6: a rate-limited attempt sleeps the 1.2s pacing delay and the 61s
cooldown (12 and 610 tenths) and consumes exactly one of the remaining
attempts; consequently, for an asset whose code has a canonical id, three
consecutive 429 responses exhaust the 3-attempt budget and the stored
result is the fallback entry (name = code, icon path absent) — a log line
and a stored entry, not a crash. -/
theorem C6_rate_limit_budget :
    (∀ (env : NetEnv) (code : String) (fs : List String) (idx rem : ℕ),
      env.attempt code idx = .rateLimited →
      attemptLoop env code idx (rem + 1) fs =
        ⟨(attemptLoop env code (idx + 1) rem fs).result,
          (attemptLoop env code (idx + 1) rem fs).fs,
          12 :: 610 :: (attemptLoop env code (idx + 1) rem fs).sleeps,
          (attemptLoop env code (idx + 1) rem fs).calls + 1⟩) ∧
    (∀ (env : NetEnv) (code : String) (st : CacheState) (cgid : String),
      mapGet st.coingecko_map (toLowerStr code) = some cgid →
      (∀ i, i < 3 → env.attempt code i = .rateLimited) →
      processCode env code st =
        ({ st with asset_details := storeSet st.asset_details code ⟨code, none⟩ },
          [12, 610, 12, 610, 12, 610], 3)) := by
  constructor
  · intro env code fs idx rem h
    simp [attemptLoop, h]
  · intro env code st cgid hmap h429
    have h0 := h429 0 (by omega)
    have h1 := h429 1 (by omega)
    have h2 := h429 2 (by omega)
    simp [processCode, hmap, attemptLoop, h0, h1, h2]

/-- Witness for `C6_rate_limit_budget`: a concrete asset whose three
attempts are all rate-limited ends as a stored fallback entry after three
61-second cooldowns. -/
theorem C6_witness :
    processCode ⟨some [("aaa", "aaa-id")], fun _ _ => .rateLimited⟩ "AAA"
        ⟨[], [], [("aaa", "aaa-id")], none, []⟩ =
      (⟨[("AAA", ⟨"AAA", none⟩)], [], [("aaa", "aaa-id")], none, []⟩,
        [12, 610, 12, 610, 12, 610], 3) :=
  (C6_rate_limit_budget.2 ⟨some [("aaa", "aaa-id")], fun _ _ => .rateLimited⟩
      "AAA" ⟨[], [], [("aaa", "aaa-id")], none, []⟩ "aaa-id" (by decide)
      (fun _ _ => rfl)).trans (by decide)

/-- Network environment of the C2 counterexample: the canonical map knows
the code but every per-asset fetch attempt fails. -/
def failEnv : NetEnv := ⟨none, fun _ _ => .failure⟩

/-- Initial state of the C2 scenarios: empty detail store, CoinGecko map
already in memory and mirrored on disk. -/
def c2State : CacheState :=
  ⟨[], [], [("aaa", "aaa-id")], some [("aaa", "aaa-id")], []⟩

/-- Network environment of the amended C2 theorem: every per-asset fetch
attempt succeeds with a display name and an icon URL. -/
def successEnv : NetEnv :=
  ⟨some [("aaa", "aaa-id")], fun _ _ => .success (some "Aardvark") (some "icon-url")⟩

/-- C2 counterexample: after a first `ensure_asset_details_are_loaded`
call in which every attempt for the code failed, the fallback entry is
stored and persisted — yet an immediately repeated call with the same
symbol set performs three further network calls, not zero: a fallback
entry has no icon path, so the missing-entry check classifies the code as
missing again and the enrichment is retried. -/
theorem C2_counterexample :
    storeGet (ensure_asset_details_are_loaded failEnv c2State
        ["AAA/USDT:USDT"]).state.asset_details "AAA" = some ⟨"AAA", none⟩ ∧
    (ensure_asset_details_are_loaded failEnv c2State
        ["AAA/USDT:USDT"]).state.disk_details =
      (ensure_asset_details_are_loaded failEnv c2State
        ["AAA/USDT:USDT"]).state.asset_details ∧
    (ensure_asset_details_are_loaded failEnv
        (ensure_asset_details_are_loaded failEnv c2State ["AAA/USDT:USDT"]).state
        ["AAA/USDT:USDT"]).calls = 3 := by
  refine ⟨by decide, by decide, by decide⟩

/-- C2 (amended): a repeated `ensure_asset_details_are_loaded` call
performs zero additional network calls exactly in the nothing-missing
case: whenever every base code of the symbol set has a usable entry — an
entry with an icon path whose file exists — the call returns immediately,
with zero network calls and the state unchanged.  A fully successful
first call establishes exactly that, as the concrete second conjunct
shows; codes whose first call ended with a fallback entry are classified
missing again and retried (see the counterexample). -/
theorem C2_enrichment_idempotence :
    (∀ (env : NetEnv) (st : CacheState) (syms : List String),
      missingCurrencies st syms = [] →
      ensure_asset_details_are_loaded env st syms = ⟨st, 0, [], false⟩) ∧
    (ensure_asset_details_are_loaded successEnv
        (ensure_asset_details_are_loaded successEnv c2State ["AAA/USDT:USDT"]).state
        ["AAA/USDT:USDT"]).calls = 0 := by
  constructor
  · intro env st syms h
    simp [ensure_asset_details_are_loaded, h]
  · decide

/-- Witness for `C2_enrichment_idempotence` on a state whose only code is
fully usable. -/
theorem C2_witness :
    ensure_asset_details_are_loaded failEnv
        ⟨[("AAA", ⟨"Aardvark", some "cache/icons/AAA.png"⟩)], [], [], none,
          ["cache/icons/AAA.png"]⟩ ["AAA/USDT:USDT"] =
      ⟨⟨[("AAA", ⟨"Aardvark", some "cache/icons/AAA.png"⟩)], [], [], none,
          ["cache/icons/AAA.png"]⟩, 0, [], false⟩ :=
  C2_enrichment_idempotence.1 failEnv
    ⟨[("AAA", ⟨"Aardvark", some "cache/icons/AAA.png"⟩)], [], [], none,
      ["cache/icons/AAA.png"]⟩ ["AAA/USDT:USDT"] (by decide)

end CryptoTool
